import Mathlib

/-!
Shallow embedding of the shunting-yard calculator in `src/main.rs`.

The pipeline (`Tokens::parse` → `Tokens::shunting` → `Tokens::solve`,
composed by `Tokens::eval`) is translated function by function.  Numeric
values (`f64` in the source) are modelled by `Rat`: every control-flow
decision of the pipeline is independent of the numeric values (the code
never branches on a number), and the literals appearing in the claims are
small decimals, so the rational model is exact where it matters.  Division
is `Rat` division (total), mirroring that `Operator::call` performs the
host division unconditionally and never signals an error.

A Rust `panic!` or `unreachable!` sitting on a reachable-by-type branch is
modelled by an explicit `PRes.panicked` outcome, so that freedom from
panics is a provable statement.  The dead final arms of
`Operator::precedence` and `Operator::call` (all four enum variants are
already covered above them) have no counterpart: the Lean match is
exhaustive, exactly as the Rust one is.
-/

/-- The source enumeration `Operator` with variants Add, Sub, Mul, Div. -/
inductive Operator where
  | Add : Operator
  | Sub : Operator
  | Mul : Operator
  | Div : Operator
deriving DecidableEq, Repr

namespace Operator

/-- Embeds `Operator::from_char`.  The unreachable default arm is modelled
by `none`; the sole caller (`Token::from_char`) only passes the four
operator characters. -/
def from_char (chr : Char) : Option Operator :=
  if chr = '+' then some Operator.Add
  else if chr = '-' then some Operator.Sub
  else if chr = '*' then some Operator.Mul
  else if chr = '/' then some Operator.Div
  else none

/-- Embeds `Operator::precedence`: Add/Sub map to 1, Mul/Div to 2.  The
source returns `u8`; the values are tiny, so `Nat` models `u8` exactly. -/
def precedence : Operator → Nat
  | Operator.Add => 1
  | Operator.Sub => 1
  | Operator.Mul => 2
  | Operator.Div => 2

/-- Embeds `Operator::call`: the host arithmetic on the numeric type.
The quotient `x / y` is computed unconditionally — a zero divisor is never
inspected, and no error value exists on this path. -/
def call : Operator → Rat → Rat → Rat
  | Operator.Add, x, y => x + y
  | Operator.Sub, x, y => x - y
  | Operator.Mul, x, y => x * y
  | Operator.Div, x, y => x / y

end Operator

/-- The source enumeration `Token`: a numeric literal `Num`, an operator
`Oper`, or one of the two parenthesis markers. -/
inductive Token where
  | Num : Rat → Token
  | Oper : Operator → Token
  | ParenOpen : Token
  | ParenClose : Token
deriving DecidableEq, Repr

namespace Token

/-- Embeds `Token::from_char`.  The unreachable default arm is modelled by
`none`; the caller (`Tokens::parse`) only reaches this function after
matching one of the six characters `+ - * / ( )`. -/
def from_char (chr : Char) : Option Token :=
  if chr = '+' ∨ chr = '-' ∨ chr = '*' ∨ chr = '/' then
    (Operator.from_char chr).map Token.Oper
  else if chr = '(' then some Token.ParenOpen
  else if chr = ')' then some Token.ParenClose
  else none

/-- Embeds `Token::is_lower`, called as `token.is_lower(top)` in
`Tokens::shunting`.  When both receiver and argument are operators it
returns `self.precedence < other.precedence` — a STRICT comparison.  When
the argument is not an operator it returns `false`.  The source's outer
`unreachable!` (receiver not an operator) is modelled as `false`; it is
never exercised, because the only call site sits inside the `Oper`
match arm, so the receiver is always an operator. -/
def is_lower : Token → Token → Bool
  | Token.Oper oper, Token.Oper other => oper.precedence < other.precedence
  | Token.Oper _, _ => false
  | _, _ => false

/-- Embeds `Token::is_num`. -/
def is_num : Token → Bool
  | Token.Num _ => true
  | _ => false

/-- Embeds `Token::is_oper`. -/
def is_oper : Token → Bool
  | Token.Oper _ => true
  | _ => false

/-- Embeds `Token::is_paren`. -/
def is_paren : Token → Bool
  | Token.ParenOpen => true
  | Token.ParenClose => true
  | _ => false

end Token

/-- The source enumeration `MathError`, payloads included (the `Tokens`
payload is a list of `Token`).  `Generic` is declared but never
constructed, exactly as in the source. -/
inductive MathError where
  | Generic : String → MathError
  | ParseNum : String → MathError
  | BadChar : Char → MathError
  | UnclosedParens : List Token → MathError
  | UnmatchedParens : List Token → MathError
  | NotEnoughTokens : List Token → MathError
deriving DecidableEq, Repr

/-- Outcome of a Rust function that returns `Result` but may also panic:
`ok` and `err` mirror `Ok` and `Err`, and `panicked` marks an executed
`panic!` or `unreachable!`. -/
inductive PRes (α : Type) where
  | ok : α → PRes α
  | err : MathError → PRes α
  | panicked : PRes α
deriving DecidableEq, Repr

/-- The character class of the source pattern matching a digit or a dot. -/
def isDigitDot (c : Char) : Bool :=
  ('0' ≤ c && c ≤ '9') || c = '.'

/-- The character class of the source pattern matching one of the six
operator and parenthesis characters. -/
def isOpChar (c : Char) : Bool :=
  c = '+' || c = '-' || c = '*' || c = '/' || c = '(' || c = ')'

/-- Embeds Rust's `char::is_whitespace`: the Unicode White_Space property
(U+0009 to U+000D, U+0020, U+0085, U+00A0, U+1680, U+2000 to U+200A,
U+2028, U+2029, U+202F, U+205F, U+3000). -/
def rustIsWhitespace (c : Char) : Bool :=
  let n := c.toNat
  (0x9 ≤ n && n ≤ 0xD) || n = 0x20 || n = 0x85 || n = 0xA0 || n = 0x1680 ||
    (0x2000 ≤ n && n ≤ 0x200A) || n = 0x2028 || n = 0x2029 || n = 0x202F ||
    n = 0x205F || n = 0x3000

/-- Embeds Rust's `str::trim`: strip leading and trailing White_Space
characters. -/
def rustTrim (cs : List Char) : List Char :=
  ((cs.dropWhile rustIsWhitespace).reverse.dropWhile rustIsWhitespace).reverse

/-- The numeric value of a run of decimal digits, most significant first. -/
def digitsToNat (ds : List Char) : Nat :=
  ds.foldl (fun a c => a * 10 + (c.toNat - 48)) 0

/-- The exact value of a decimal literal (an integer part, optionally
followed by a dot and a fractional part) over the digit/dot alphabet, as a
rational number. -/
def ratOfDecimal (buf : List Char) : Rat :=
  let intPart := buf.takeWhile (fun c => c != '.')
  let frac := (buf.dropWhile (fun c => c != '.')).drop 1
  ((digitsToNat intPart * 10 ^ frac.length + digitsToNat frac : Nat) : Rat) /
    ((10 ^ frac.length : Nat) : Rat)

/-- Models Rust's `str::parse::<f64>` restricted to the buffers
`Tokens::parse_num` builds, which are runs over the alphabet of digits and
dots: such a buffer parses iff it contains at least one digit and at most
one dot (so the buffers 1, 1. and .5 parse, while an empty buffer, a lone
dot and 1.2.3 do not — no sign, exponent or inf/nan spelling can occur in
a digit/dot run).  The resulting value is the exact decimal value in
`Rat`. -/
def parseFloat (buf : List Char) : Option Rat :=
  if buf.all isDigitDot && buf.any (fun c => '0' ≤ c && c ≤ '9') &&
      buf.count '.' ≤ 1 then
    some (ratOfDecimal buf)
  else none

/-- The maximal digit/dot run at the front of the input, together with the
rest: the buffer-collecting loop of `Tokens::parse_num`. -/
def spanNum : List Char → List Char × List Char
  | [] => ([], [])
  | c :: cs =>
    if isDigitDot c then
      ((c :: (spanNum cs).1), (spanNum cs).2)
    else ([], c :: cs)

namespace Tokens

/-- Embeds `Tokens::parse_num`: collect the maximal digit/dot run into a
buffer, then parse it; on failure return `ParseNum` carrying exactly that
buffer.  The pair's second component is the unconsumed remainder of the
character stream (the state of the peekable iterator after the call). -/
def parse_num (input : List Char) : Except MathError Rat × List Char :=
  match parseFloat (spanNum input).1 with
  | some float => (Except.ok float, (spanNum input).2)
  | none => (Except.error (MathError.ParseNum (String.mk (spanNum input).1)),
             (spanNum input).2)

/-- Embeds the `loop` of `Tokens::parse`, one iteration per unit of fuel.
Arm order is the source's match order: digit/dot first, then the six
operator and parenthesis characters, then the separator arm, then the
final arm returning `BadChar`.

Rust applies a match guard to EVERY alternative of an or-pattern, so the
source's separator arm — the or-pattern over an equals sign and a bound
character, guarded by `chr.is_whitespace()` — only fires when the
character is whitespace: for an equals sign both alternatives match but
the guard fails, and control falls through to the `BadChar` arm.  The
embedding therefore tests only `rustIsWhitespace` for the skip case, and
the equals sign reaches `BadChar`.

Fuel makes the recursion structural so that concrete runs reduce inside
the kernel.  Every iteration consumes at least one input character, so the
initial fuel — the input length, set by `parse` — can never run out; the
exhaustion branch is modelled as a panic and proved unreachable below
(`parseLoop_no_panic`). -/
def parseLoop : Nat → List Char → List Token → PRes (List Token)
  | _, [], tokens => PRes.ok tokens
  | 0, _ :: _, _ => PRes.panicked
  | fuel + 1, c :: cs, tokens =>
    if isDigitDot c then
      match (parse_num (c :: cs)).1 with
      | Except.ok float =>
        parseLoop fuel (parse_num (c :: cs)).2 (tokens ++ [Token.Num float])
      | Except.error e => PRes.err e
    else if isOpChar c then
      match Token.from_char c with
      | some t => parseLoop fuel cs (tokens ++ [t])
      | none => PRes.panicked
    else if rustIsWhitespace c then
      parseLoop fuel cs tokens
    else
      PRes.err (MathError.BadChar c)

/-- Embeds `Tokens::parse` on a character list. -/
def parse (input : List Char) : PRes (List Token) :=
  parseLoop input.length input []

/-- Embeds the inner pop loop of the `ParenClose` arm of
`Tokens::shunting`: pop stack entries into the output queue while the top
exists and is not `ParenOpen`.  Returns the remaining stack and the
extended queue. -/
def popWhileNotOpen : List Token → List Token → List Token × List Token
  | [], queue => ([], queue)
  | Token.ParenOpen :: s, queue => (Token.ParenOpen :: s, queue)
  | t :: s, queue => popWhileNotOpen s (queue ++ [t])

/-- Embeds the inner pop loop of the `Oper` arm of `Tokens::shunting`: pop
stack entries into the output queue while `token.is_lower(top)` holds.
Returns the remaining stack and the extended queue. -/
def popLowerOps (token : Token) : List Token → List Token → List Token × List Token
  | [], queue => ([], queue)
  | top :: s, queue =>
    if token.is_lower top then popLowerOps token s (queue ++ [top])
    else (top :: s, queue)

/-- Embeds the final drain loop of `Tokens::shunting`: `ParenOpen` fails
with `UnclosedParens` carrying the original sequence `orig`, operators are
appended to the queue, and any other token hits `unreachable!`. -/
def drain (orig : List Token) : List Token → List Token → PRes (List Token)
  | [], queue => PRes.ok queue
  | Token.ParenOpen :: _, _ => PRes.err (MathError.UnclosedParens orig)
  | Token.Oper oper :: s, queue => drain orig s (queue ++ [Token.Oper oper])
  | _ :: _, _ => PRes.panicked

/-- Embeds the token loop of `Tokens::shunting`, followed by the final
drain.  In the `ParenClose` arm, after the inner pop loop the source pops
once more and discards the popped entry; a pop from an empty stack (no
matching open) fails with `UnmatchedParens` carrying the original
sequence. -/
def shuntingLoop (orig : List Token) :
    List Token → List Token → List Token → PRes (List Token)
  | [], op_stack, queue => drain orig op_stack queue
  | t :: ts, op_stack, queue =>
    match t with
    | Token.Num _ => shuntingLoop orig ts op_stack (queue ++ [t])
    | Token.ParenOpen => shuntingLoop orig ts (t :: op_stack) queue
    | Token.ParenClose =>
      match popWhileNotOpen op_stack queue with
      | ([], _) => PRes.err (MathError.UnmatchedParens orig)
      | (_ :: s, queue2) => shuntingLoop orig ts s queue2
    | Token.Oper _ =>
      match popLowerOps t op_stack queue with
      | (s, queue2) => shuntingLoop orig ts (t :: s) queue2

/-- Embeds `Tokens::shunting`: infix to postfix with an operator stack and
an output queue, both initially empty; errors carry the original input
sequence. -/
def shunting (tokens : List Token) : PRes (List Token) :=
  shuntingLoop tokens tokens [] []

/-- Embeds the token loop of `Tokens::solve` plus the final stack-length
check.  `Num` pushes; `Oper` requires two stacked values and pushes
`oper.call(x, y)` where `y` is the top (popped first) and `x` the
second-from-top; a paren token hits `unreachable!`; at the end exactly one
stacked value must remain, otherwise the result is `NotEnoughTokens`
carrying the (postfix) input sequence. -/
def solveLoop (orig : List Token) : List Token → List Rat → PRes Rat
  | [], stack =>
    match stack with
    | [v] => PRes.ok v
    | _ => PRes.err (MathError.NotEnoughTokens orig)
  | t :: ts, stack =>
    match t with
    | Token.Num float => solveLoop orig ts (float :: stack)
    | Token.Oper oper =>
      match stack with
      | y :: x :: s => solveLoop orig ts (oper.call x y :: s)
      | _ => PRes.err (MathError.NotEnoughTokens orig)
    | _ => PRes.panicked

/-- Embeds `Tokens::solve`: postfix evaluation over a value stack. -/
def solve (tokens : List Token) : PRes Rat :=
  solveLoop tokens tokens []

/-- Embeds `Tokens::eval`: trim the line, tokenize, convert to postfix,
evaluate, short-circuiting on the first failure. -/
def eval (input : String) : PRes Rat :=
  match parse (rustTrim input.data) with
  | PRes.ok tokens =>
    match shunting tokens with
    | PRes.ok postfix_tokens => solve postfix_tokens
    | PRes.err e => PRes.err e
    | PRes.panicked => PRes.panicked
  | PRes.err e => PRes.err e
  | PRes.panicked => PRes.panicked

end Tokens

/-- Holds of the tokens that may legally sit on the converter's operator
stack: `ParenOpen` and operators.  Nothing else is ever pushed there. -/
def stackTok : Token → Bool
  | Token.ParenOpen => true
  | Token.Oper _ => true
  | _ => false

/-- Holds of the tokens that may appear in the converter's output queue:
numbers and operators (no parentheses). -/
def outTok (t : Token) : Bool :=
  t.is_num || t.is_oper

/-- Input line of the left-associativity example. -/
def inp1 : String := "8-3-2"

/-- Input line with a trailing separator-style equals sign. -/
def inp2a : String := "1 + 2 ="

/-- Input line of the plain sum. -/
def inp2b : String := "1+2"

/-- Input line of the precedence example. -/
def inp3a : String := "2+3*4"

/-- Input line of the parenthesised precedence example. -/
def inp3b : String := "(2+3)*4"

/-- Input line with an unclosed opening parenthesis. -/
def inp4a : String := "(1+2"

/-- Input line with an unmatched closing parenthesis. -/
def inp4b : String := "1+2)"

/-- Input line consisting of a lone operator. -/
def inp5a : String := "+"

/-- Input line consisting of two numbers and no operator. -/
def inp5b : String := "1 2"

/-- Input line with a malformed numeric literal. -/
def inp6a : String := "1.2.3"

/-- Input line consisting of a bare dot. -/
def inp6b : String := "."

/-- Input line dividing by zero. -/
def inp9a : String := "8/0"

/-- Well-formed input line whose divisor evaluates to zero. -/
def inp9b : String := "(1+2)/(3-3)"

/-- Ordinary input line used as the totality witness. -/
def inp10 : String := "2*(3+4)"
/-! ### Auxiliary lemmas about the tokenizer -/

theorem spanNum_eq (cs : List Char) :
    spanNum cs = (cs.takeWhile isDigitDot, cs.dropWhile isDigitDot) := by
  induction cs with
  | nil => rfl
  | cons c cs ih =>
    cases h : isDigitDot c with
    | true => simp [spanNum, List.takeWhile_cons, List.dropWhile_cons, h, ih]
    | false => simp [spanNum, List.takeWhile_cons, List.dropWhile_cons, h]

theorem parse_num_snd (input : List Char) :
    (Tokens.parse_num input).2 = input.dropWhile isDigitDot := by
  unfold Tokens.parse_num
  cases parseFloat (spanNum input).1 <;> simp [spanNum_eq]

theorem parse_num_fst_err (input : List Char)
    (h : parseFloat (input.takeWhile isDigitDot) = none) :
    (Tokens.parse_num input).1 =
      Except.error (MathError.ParseNum (String.mk (input.takeWhile isDigitDot))) := by
  unfold Tokens.parse_num
  simp [spanNum_eq, h]

theorem from_char_isSome (c : Char) (h : isOpChar c = true) :
    ∃ t, Token.from_char c = some t := by
  simp only [isOpChar, Bool.or_eq_true, decide_eq_true_eq] at h
  rcases h with ((((h | h) | h) | h) | h) | h <;> subst h <;> exact ⟨_, rfl⟩

theorem parseLoop_no_panic :
    ∀ (fuel : Nat) (cs : List Char) (tokens : List Token), cs.length ≤ fuel →
      Tokens.parseLoop fuel cs tokens ≠ PRes.panicked := by
  intro fuel
  induction fuel with
  | zero =>
    intro cs tokens h
    have hnil : cs = [] := List.eq_nil_of_length_eq_zero (Nat.le_zero.mp h)
    subst hnil
    simp [Tokens.parseLoop]
  | succ n ih =>
    intro cs tokens h
    cases cs with
    | nil => simp [Tokens.parseLoop]
    | cons c cs =>
      have hlen : cs.length ≤ n := Nat.le_of_succ_le_succ h
      cases hd : isDigitDot c with
      | true =>
        cases hp : (Tokens.parse_num (c :: cs)).1 with
        | ok float =>
          have hrest : (Tokens.parse_num (c :: cs)).2.length ≤ n := by
            rw [parse_num_snd, List.dropWhile_cons, if_pos (by simp [hd])]
            exact Nat.le_trans (List.dropWhile_sublist isDigitDot).length_le hlen
          simpa [Tokens.parseLoop, hd, hp] using ih _ _ hrest
        | error e => simp [Tokens.parseLoop, hd, hp]
      | false =>
        cases ho : isOpChar c with
        | true =>
          obtain ⟨t, ht⟩ := from_char_isSome c ho
          simpa [Tokens.parseLoop, hd, ho, ht] using ih _ _ hlen
        | false =>
          cases hw : rustIsWhitespace c with
          | true => simpa [Tokens.parseLoop, hd, ho, hw] using ih _ _ hlen
          | false => simp [Tokens.parseLoop, hd, ho, hw]

theorem parse_no_panic (input : List Char) : Tokens.parse input ≠ PRes.panicked :=
  parseLoop_no_panic input.length input [] (Nat.le_refl _)

/-! ### Auxiliary lemmas about the converter -/

theorem is_lower_oper {token top : Token} (h : token.is_lower top = true) :
    ∃ o, top = Token.Oper o := by
  cases top with
  | Oper o => exact ⟨o, rfl⟩
  | Num v => cases token <;> simp [Token.is_lower] at h
  | ParenOpen => cases token <;> simp [Token.is_lower] at h
  | ParenClose => cases token <;> simp [Token.is_lower] at h

theorem popWhileNotOpen_inv :
    ∀ (s queue : List Token),
      (∀ t ∈ s, stackTok t = true) → (∀ t ∈ queue, outTok t = true) →
      (∀ t ∈ (Tokens.popWhileNotOpen s queue).1, stackTok t = true) ∧
      (∀ t ∈ (Tokens.popWhileNotOpen s queue).2, outTok t = true) := by
  intro s
  induction s with
  | nil =>
    intro queue hs hq
    exact ⟨by simp [Tokens.popWhileNotOpen], by simpa [Tokens.popWhileNotOpen] using hq⟩
  | cons t s ih =>
    intro queue hs hq
    cases t with
    | Num v =>
      have hbad := hs (Token.Num v) (List.mem_cons_self _ _)
      simp [stackTok] at hbad
    | ParenClose =>
      have hbad := hs Token.ParenClose (List.mem_cons_self _ _)
      simp [stackTok] at hbad
    | ParenOpen =>
      exact ⟨by simpa [Tokens.popWhileNotOpen] using hs, by simpa [Tokens.popWhileNotOpen] using hq⟩
    | Oper o =>
      have hq2 : ∀ t ∈ queue ++ [Token.Oper o], outTok t = true := by
        intro t ht
        rcases List.mem_append.mp ht with h | h
        · exact hq t h
        · simp at h; subst h; simp [outTok, Token.is_oper]
      have hs2 : ∀ t ∈ s, stackTok t = true := fun t ht => hs t (List.mem_cons_of_mem _ ht)
      simpa [Tokens.popWhileNotOpen] using ih (queue ++ [Token.Oper o]) hs2 hq2

theorem popLowerOps_inv (token : Token) :
    ∀ (s queue : List Token),
      (∀ t ∈ s, stackTok t = true) → (∀ t ∈ queue, outTok t = true) →
      (∀ t ∈ (Tokens.popLowerOps token s queue).1, stackTok t = true) ∧
      (∀ t ∈ (Tokens.popLowerOps token s queue).2, outTok t = true) := by
  intro s
  induction s with
  | nil =>
    intro queue hs hq
    exact ⟨by simp [Tokens.popLowerOps], by simpa [Tokens.popLowerOps] using hq⟩
  | cons top s ih =>
    intro queue hs hq
    cases hl : token.is_lower top with
    | false =>
      exact ⟨by simpa [Tokens.popLowerOps, hl] using hs, by simpa [Tokens.popLowerOps, hl] using hq⟩
    | true =>
      obtain ⟨o, rfl⟩ := is_lower_oper hl
      have hq2 : ∀ t ∈ queue ++ [Token.Oper o], outTok t = true := by
        intro t ht
        rcases List.mem_append.mp ht with h | h
        · exact hq t h
        · simp at h; subst h; simp [outTok, Token.is_oper]
      have hs2 : ∀ t ∈ s, stackTok t = true := fun t ht => hs t (List.mem_cons_of_mem _ ht)
      simpa [Tokens.popLowerOps, hl] using ih (queue ++ [Token.Oper o]) hs2 hq2

theorem drain_inv (orig : List Token) :
    ∀ (s queue : List Token),
      (∀ t ∈ s, stackTok t = true) → (∀ t ∈ queue, outTok t = true) →
      Tokens.drain orig s queue ≠ PRes.panicked ∧
      (∀ out, Tokens.drain orig s queue = PRes.ok out → ∀ t ∈ out, outTok t = true) := by
  intro s
  induction s with
  | nil =>
    intro queue hs hq
    constructor
    · simp [Tokens.drain]
    · intro out hout
      simp [Tokens.drain] at hout
      subst hout
      exact hq
  | cons t s ih =>
    intro queue hs hq
    cases t with
    | Num v =>
      have hbad := hs (Token.Num v) (List.mem_cons_self _ _)
      simp [stackTok] at hbad
    | ParenClose =>
      have hbad := hs Token.ParenClose (List.mem_cons_self _ _)
      simp [stackTok] at hbad
    | ParenOpen =>
      constructor
      · simp [Tokens.drain]
      · intro out hout
        simp [Tokens.drain] at hout
    | Oper o =>
      have hq2 : ∀ t ∈ queue ++ [Token.Oper o], outTok t = true := by
        intro t ht
        rcases List.mem_append.mp ht with h | h
        · exact hq t h
        · simp at h; subst h; simp [outTok, Token.is_oper]
      have hs2 : ∀ t ∈ s, stackTok t = true := fun t ht => hs t (List.mem_cons_of_mem _ ht)
      simpa [Tokens.drain] using ih (queue ++ [Token.Oper o]) hs2 hq2

theorem shuntingLoop_inv (orig : List Token) :
    ∀ (ts op_stack queue : List Token),
      (∀ t ∈ op_stack, stackTok t = true) → (∀ t ∈ queue, outTok t = true) →
      Tokens.shuntingLoop orig ts op_stack queue ≠ PRes.panicked ∧
      (∀ out, Tokens.shuntingLoop orig ts op_stack queue = PRes.ok out →
        ∀ t ∈ out, outTok t = true) := by
  intro ts
  induction ts with
  | nil =>
    intro st q hs hq
    simpa [Tokens.shuntingLoop] using drain_inv orig st q hs hq
  | cons t ts ih =>
    intro st q hs hq
    cases t with
    | Num v =>
      have hq2 : ∀ t ∈ q ++ [Token.Num v], outTok t = true := by
        intro t ht
        rcases List.mem_append.mp ht with h | h
        · exact hq t h
        · simp at h; subst h; simp [outTok, Token.is_num]
      simpa [Tokens.shuntingLoop] using ih st (q ++ [Token.Num v]) hs hq2
    | ParenOpen =>
      have hs2 : ∀ t ∈ Token.ParenOpen :: st, stackTok t = true := by
        intro t ht
        rcases List.mem_cons.mp ht with h | h
        · subst h; simp [stackTok]
        · exact hs t h
      simpa [Tokens.shuntingLoop] using ih (Token.ParenOpen :: st) q hs2 hq
    | ParenClose =>
      obtain ⟨h1, h2⟩ := popWhileNotOpen_inv st q hs hq
      rcases hp : Tokens.popWhileNotOpen st q with ⟨s2, q2⟩
      rw [hp] at h1 h2
      cases s2 with
      | nil => simp [Tokens.shuntingLoop, hp]
      | cons x s3 =>
        have hs2 : ∀ t ∈ s3, stackTok t = true := fun t ht => h1 t (List.mem_cons_of_mem _ ht)
        simpa [Tokens.shuntingLoop, hp] using ih s3 q2 hs2 h2
    | Oper o =>
      obtain ⟨h1, h2⟩ := popLowerOps_inv (Token.Oper o) st q hs hq
      rcases hp : Tokens.popLowerOps (Token.Oper o) st q with ⟨s2, q2⟩
      rw [hp] at h1 h2
      have hs2 : ∀ t ∈ Token.Oper o :: s2, stackTok t = true := by
        intro t ht
        rcases List.mem_cons.mp ht with h | h
        · subst h; simp [stackTok]
        · exact h1 t h
      simpa [Tokens.shuntingLoop, hp] using ih (Token.Oper o :: s2) q2 hs2 h2

theorem shunting_no_panic (tokens : List Token) :
    Tokens.shunting tokens ≠ PRes.panicked :=
  (shuntingLoop_inv tokens tokens [] [] (by simp) (by simp)).1

theorem shunting_ok_out {tokens out : List Token}
    (h : Tokens.shunting tokens = PRes.ok out) : ∀ t ∈ out, outTok t = true :=
  (shuntingLoop_inv tokens tokens [] [] (by simp) (by simp)).2 out h

/-! ### Error shapes of the converter and the evaluator -/

theorem drain_err (orig : List Token) :
    ∀ (s queue : List Token) (e : MathError),
      Tokens.drain orig s queue = PRes.err e → e = MathError.UnclosedParens orig := by
  intro s
  induction s with
  | nil =>
    intro queue e h
    simp [Tokens.drain] at h
  | cons t s ih =>
    intro queue e h
    cases t with
    | Num v => simp [Tokens.drain] at h
    | ParenClose => simp [Tokens.drain] at h
    | ParenOpen =>
      simp [Tokens.drain] at h
      exact h.symm
    | Oper o =>
      simp only [Tokens.drain] at h
      exact ih _ e h

theorem shuntingLoop_err (orig : List Token) :
    ∀ (ts op_stack queue : List Token) (e : MathError),
      Tokens.shuntingLoop orig ts op_stack queue = PRes.err e →
      e = MathError.UnclosedParens orig ∨ e = MathError.UnmatchedParens orig := by
  intro ts
  induction ts with
  | nil =>
    intro st q e h
    simp only [Tokens.shuntingLoop] at h
    exact Or.inl (drain_err orig st q e h)
  | cons t ts ih =>
    intro st q e h
    cases t with
    | Num v =>
      simp only [Tokens.shuntingLoop] at h
      exact ih _ _ e h
    | ParenOpen =>
      simp only [Tokens.shuntingLoop] at h
      exact ih _ _ e h
    | ParenClose =>
      rcases hp : Tokens.popWhileNotOpen st q with ⟨s2, q2⟩
      rw [Tokens.shuntingLoop, hp] at h
      cases s2 with
      | nil =>
        simp at h
        exact Or.inr h.symm
      | cons x s3 =>
        simp at h
        exact ih _ _ e h
    | Oper o =>
      rcases hp : Tokens.popLowerOps (Token.Oper o) st q with ⟨s2, q2⟩
      rw [Tokens.shuntingLoop, hp] at h
      exact ih _ _ e h

theorem solveLoop_err (orig : List Token) :
    ∀ (ts : List Token) (stack : List Rat) (e : MathError),
      Tokens.solveLoop orig ts stack = PRes.err e → e = MathError.NotEnoughTokens orig := by
  intro ts
  induction ts with
  | nil =>
    intro stack e h
    match stack with
    | [] => simp [Tokens.solveLoop] at h; exact h.symm
    | [v] => simp [Tokens.solveLoop] at h
    | v :: w :: s => simp [Tokens.solveLoop] at h; exact h.symm
  | cons t ts ih =>
    intro stack e h
    cases t with
    | Num v =>
      simp only [Tokens.solveLoop] at h
      exact ih _ e h
    | Oper o =>
      match stack with
      | [] => simp [Tokens.solveLoop] at h; exact h.symm
      | [v] => simp [Tokens.solveLoop] at h; exact h.symm
      | y :: x :: s =>
        simp only [Tokens.solveLoop] at h
        exact ih _ e h
    | ParenOpen => simp [Tokens.solveLoop] at h
    | ParenClose => simp [Tokens.solveLoop] at h

theorem solveLoop_no_panic (orig : List Token) :
    ∀ (ts : List Token) (stack : List Rat), (∀ t ∈ ts, outTok t = true) →
      Tokens.solveLoop orig ts stack ≠ PRes.panicked := by
  intro ts
  induction ts with
  | nil =>
    intro stack hts
    match stack with
    | [] => simp [Tokens.solveLoop]
    | [v] => simp [Tokens.solveLoop]
    | v :: w :: s => simp [Tokens.solveLoop]
  | cons t ts ih =>
    intro stack hts
    have hts2 : ∀ t ∈ ts, outTok t = true := fun t ht => hts t (List.mem_cons_of_mem _ ht)
    cases t with
    | Num v =>
      simpa [Tokens.solveLoop] using ih (v :: stack) hts2
    | Oper o =>
      match stack with
      | [] => simp [Tokens.solveLoop]
      | [v] => simp [Tokens.solveLoop]
      | y :: x :: s => simpa [Tokens.solveLoop] using ih (o.call x y :: s) hts2
    | ParenOpen =>
      have hbad := hts Token.ParenOpen (List.mem_cons_self _ _)
      simp [outTok, Token.is_num, Token.is_oper] at hbad
    | ParenClose =>
      have hbad := hts Token.ParenClose (List.mem_cons_self _ _)
      simp [outTok, Token.is_num, Token.is_oper] at hbad

theorem solve_err {tokens : List Token} {e : MathError}
    (h : Tokens.solve tokens = PRes.err e) : e = MathError.NotEnoughTokens tokens :=
  solveLoop_err tokens tokens [] e h

theorem solve_no_panic (tokens : List Token) (hts : ∀ t ∈ tokens, outTok t = true) :
    Tokens.solve tokens ≠ PRes.panicked :=
  solveLoop_no_panic tokens tokens [] hts

/-! ### The claims -/

/-- Claim C1 (settled against the code, which refutes the claim): on the
input line with three equal-precedence operators, the converter pops only
while the stack top's precedence is STRICTLY greater than the incoming
operator's (`Token.is_lower` compares with a strict less-than), so equal
precedence does NOT pop, the grouping is right-associative, and the
evaluation returns 7, not the 3 the claim asserts. -/
theorem claim_C1 : Tokens.eval inp1 = PRes.ok 7 ∧ Tokens.eval inp1 ≠ PRes.ok 3 := by
  constructor
  · with_unfolding_all rfl
  · with_unfolding_all decide

/-- Claim C2 (settled against the code, which refutes the claim): the
tokenizer does discard whitespace, but an equals sign is NOT discarded:
the guard of the separator match arm applies to both alternatives of its
or-pattern, so the equals sign falls through to the `BadChar` arm and the
first example line fails, while the whitespace-only variant succeeds. -/
theorem claim_C2 :
    Tokens.eval inp2a = PRes.err (MathError.BadChar '=') ∧
    Tokens.eval inp2b = PRes.ok 3 := by
  constructor
  · with_unfolding_all rfl
  · with_unfolding_all rfl

/-- Claim C3: multiplication binds tighter than addition and parentheses
override precedence: the unparenthesised line evaluates to 14 and the
parenthesised one to 20. -/
theorem claim_C3 : Tokens.eval inp3a = PRes.ok 14 ∧ Tokens.eval inp3b = PRes.ok 20 := by
  constructor
  · with_unfolding_all rfl
  · with_unfolding_all rfl

/-- Claim C4: an unclosed opening parenthesis fails with `UnclosedParens`
and an unmatched closing parenthesis with `UnmatchedParens`, each carrying
the original (pre-conversion) token sequence; and in general every error
the converter returns is one of these two kinds carrying the original
input sequence. -/
theorem claim_C4 :
    Tokens.eval inp4a = PRes.err (MathError.UnclosedParens
      [Token.ParenOpen, Token.Num 1, Token.Oper Operator.Add, Token.Num 2]) ∧
    Tokens.eval inp4b = PRes.err (MathError.UnmatchedParens
      [Token.Num 1, Token.Oper Operator.Add, Token.Num 2, Token.ParenClose]) ∧
    (∀ (ts : List Token) (e : MathError), Tokens.shunting ts = PRes.err e →
      e = MathError.UnclosedParens ts ∨ e = MathError.UnmatchedParens ts) := by
  refine ⟨by with_unfolding_all rfl, by with_unfolding_all rfl, ?_⟩
  intro ts e h
  exact shuntingLoop_err ts ts [] [] e h

/-- Claim C5: the evaluator fails with `NotEnoughTokens` exactly on
operand/operator imbalance: a lone operator and a pair of numbers both
fail with it, every evaluator error is of that kind (carrying the postfix
sequence), a single number evaluates to itself, and an empty postfix
sequence is also rejected. -/
theorem claim_C5 :
    Tokens.eval inp5a = PRes.err (MathError.NotEnoughTokens [Token.Oper Operator.Add]) ∧
    Tokens.eval inp5b = PRes.err (MathError.NotEnoughTokens [Token.Num 1, Token.Num 2]) ∧
    (∀ (ts : List Token) (e : MathError), Tokens.solve ts = PRes.err e →
      e = MathError.NotEnoughTokens ts) ∧
    (∀ v : Rat, Tokens.solve [Token.Num v] = PRes.ok v) ∧
    Tokens.solve [] = PRes.err (MathError.NotEnoughTokens []) := by
  refine ⟨by with_unfolding_all rfl, by with_unfolding_all rfl, ?_, fun v => rfl, rfl⟩
  intro ts e h
  exact solve_err h

/-- Claim C6: on a digit or dot the tokenizer consumes the maximal run of
digits and dots (the remainder of the stream is exactly the input with
that run dropped), and when the run does not parse as a float it fails
with `ParseNum` carrying exactly that run; concretely both malformed
literal lines fail with `ParseNum` carrying the full run. -/
theorem claim_C6 :
    Tokens.eval inp6a = PRes.err (MathError.ParseNum inp6a) ∧
    Tokens.eval inp6b = PRes.err (MathError.ParseNum inp6b) ∧
    (∀ cs : List Char, (Tokens.parse_num cs).2 = cs.dropWhile isDigitDot) ∧
    (∀ cs : List Char, parseFloat (cs.takeWhile isDigitDot) = none →
      (Tokens.parse_num cs).1 =
        Except.error (MathError.ParseNum (String.mk (cs.takeWhile isDigitDot)))) := by
  exact ⟨by with_unfolding_all rfl, by with_unfolding_all rfl,
    parse_num_snd, parse_num_fst_err⟩

/-- Claim C7: an operator pops the top of the value stack as the right
operand and the value beneath it as the left operand and pushes
`call x y`; consequently the postfix sequence 8, 3, minus evaluates to 5,
not minus 5. -/
theorem claim_C7 :
    (∀ (orig ts : List Token) (oper : Operator) (y x : Rat) (stack : List Rat),
      Tokens.solveLoop orig (Token.Oper oper :: ts) (y :: x :: stack) =
        Tokens.solveLoop orig ts (oper.call x y :: stack)) ∧
    Tokens.solve [Token.Num 8, Token.Num 3, Token.Oper Operator.Sub] = PRes.ok 5 := by
  exact ⟨fun orig ts oper y x stack => rfl, by with_unfolding_all rfl⟩

/-- Claim C8: every successful conversion result contains only number and
operator tokens; no parenthesis token ever reaches the output queue. -/
theorem claim_C8 :
    ∀ (ts out : List Token), Tokens.shunting ts = PRes.ok out →
      ∀ t ∈ out, t.is_num = true ∨ t.is_oper = true := by
  intro ts out h t ht
  have := shunting_ok_out h t ht
  simpa [outTok, Bool.or_eq_true] using this

/-- Concrete instance of the conversion invariant: the operator token of a
converted sum is a number-or-operator token. -/
theorem claim_C8_witness :
    Token.is_num (Token.Oper Operator.Add) = true ∨
    Token.is_oper (Token.Oper Operator.Add) = true :=
  claim_C8 [Token.Num 1, Token.Num 2, Token.Oper Operator.Add]
    [Token.Num 1, Token.Num 2, Token.Oper Operator.Add]
    (by with_unfolding_all rfl) (Token.Oper Operator.Add) (by simp)

/-- Claim C9: division by zero is never surfaced as an error by any
pipeline stage.  `Operator.call` applies the numeric type's total division
unconditionally (here over the rationals; the host's IEEE infinity/NaN
value itself lies outside this model), the only error the evaluator can
produce is `NotEnoughTokens`, and both division-by-zero lines return Ok. -/
theorem claim_C9 :
    (∀ x y : Rat, Operator.call Operator.Div x y = x / y) ∧
    (∃ r, Tokens.eval inp9a = PRes.ok r) ∧
    (∃ r, Tokens.eval inp9b = PRes.ok r) ∧
    (∀ (ts : List Token) (e : MathError), Tokens.solve ts = PRes.err e →
      e = MathError.NotEnoughTokens ts) := by
  refine ⟨fun x y => rfl, ⟨0, by with_unfolding_all rfl⟩, ⟨0, by with_unfolding_all rfl⟩, ?_⟩
  intro ts e h
  exact solve_err h

/-- Claim C10: on every input string the pipeline terminates (all the
embedded functions are total) and returns Ok or an error — no panic: the
fuel exhaustion and `from_char` branches of the tokenizer, the final-drain
`unreachable!` of the converter and the paren `unreachable!` of the
evaluator are never executed. -/
theorem claim_C10 (input : String) :
    (∃ r, Tokens.eval input = PRes.ok r) ∨ (∃ e, Tokens.eval input = PRes.err e) := by
  unfold Tokens.eval
  rcases hp : Tokens.parse (rustTrim input.data) with ts | e | _
  · dsimp only
    rcases hs : Tokens.shunting ts with post | e | _
    · dsimp only
      rcases hv : Tokens.solve post with r | e | _
      · exact Or.inl ⟨r, rfl⟩
      · exact Or.inr ⟨e, rfl⟩
      · exact absurd hv (solve_no_panic post (shunting_ok_out hs))
    · exact Or.inr ⟨e, rfl⟩
    · exact absurd hs (shunting_no_panic ts)
  · exact Or.inr ⟨e, rfl⟩
  · exact absurd hp (parse_no_panic _)

/-- Concrete instance of totality: an ordinary line returns Ok or an
error. -/
theorem claim_C10_witness :
    (∃ r, Tokens.eval inp10 = PRes.ok r) ∨ (∃ e, Tokens.eval inp10 = PRes.err e) :=
  claim_C10 inp10
